import Mathlib

/-
Shallow embedding of the storefront event architecture
(src/src/types/IProduct.ts together with the main module and the form
interfaces): the typed publish/subscribe event dispatcher, the view state
update of the abstract view base, and the catalog and order controllers.

Modelling notes, justified against the source:

* Handlers (JS function objects) are identified by `HId := Nat`; the bus
  compares handlers by identity (`cb !== callback`), which `Nat` equality
  models.  The listener registry `eventListeners` is a JS object mapping
  event names to arrays of callbacks; we model it as an association list
  with unique keys, `List (E × List HId)`, where `none` for a key models
  the property being absent (`undefined`).

* `dispatch` in the source is
  `this.eventListeners[event]?.forEach(callback => callback(payload))`.
  JavaScript `Array.prototype.forEach` captures the array object and its
  length at call time; `unsubscribe` never mutates that array (its
  `filter` allocates a new array which is then assigned into the map) and
  `subscribe` only pushes past the captured length.  Hence a running
  dispatch iterates exactly the listener list as it stood when the
  dispatch started, and we model dispatch as iterating a snapshot of the
  listener list while the registry evolves underneath it.

* Handler behaviour is modelled by a function `beh : HId → P → List (Cmd E P)`
  giving the sequence of bus operations (subscribe / unsubscribe / nested
  dispatch / throw) a handler performs when invoked with a payload.  A
  thrown JS exception is `Cmd.cthrow`: it aborts the rest of that handler,
  the rest of the dispatch loop, and propagates outward (the source has no
  try/catch anywhere), which the `err` field of `RunOut` records.  Nested
  dispatch is the only unbounded recursion (cyclic event chains), so the
  semantics takes fuel that decreases once per nesting level;
  `RunErr.fuelOut` is a modelling artifact distinct from a real throw.

* The catalog controller subscribes itself to `basket:update`, and within
  this program every `basket:update` is dispatched by the controller
  itself, carrying `this.basket`; its handler `updateBasket` overwrites
  the basket with the received snapshot.  `handleProductAdd` /
  `handleProductRemove` therefore compose the mutation with the nested
  self-delivery of `basket:update`.

* JS numbers carry the item counts; no fractional or overflowing
  arithmetic occurs (counts only ever increment by 1), so `Nat` models
  `itemCount` and `Option Int` models `price : number | null` (price is
  never computed with in the embedded core).
-/

/-! ## Data model (IProduct.ts, IForm.ts) -/

structure IProduct where
  id : String
  description : String
  image : String
  title : String
  category : String
  price : Option Int
  deriving DecidableEq

structure IProductCard where
  product : IProduct
  buttonText : Option String
  itemCount : Nat
  deriving DecidableEq

structure IOrderDetails where
  payment : String
  address : String
  deriving DecidableEq

structure IContactInfo where
  email : String
  phone : String
  deriving DecidableEq

/-- The combined candidate order `{...this.orderDetails, ...this.contactInfo}`
built inside `OrderController.submitOrder`: the spread union of the two
payloads (their field names are disjoint, so no field is overridden). -/
structure FinalOrder where
  payment : String
  address : String
  email : String
  phone : String
  deriving DecidableEq

/-- The event names of `AppEventMap` (the bus's closed vocabulary). -/
inductive EventName where
  | productAdd
  | productRemove
  | productView
  | basketUpdate
  | orderInit
  | orderSubmit
  | modalClose
  deriving DecidableEq

/-! ## Event bus (class EventDispatcher) -/

/-- Handler identity: JS function-object identity. -/
abbrev HId := Nat

/-- The bus state: the `eventListeners` object, a map from event names to
arrays of callbacks, with absent keys modelling `undefined`. -/
structure EventDispatcher (E : Type) where
  eventListeners : List (E × List HId)
  deriving DecidableEq

/-- Reading `this.eventListeners[event]`: `none` when the key is absent. -/
def getListeners {E : Type} [DecidableEq E] : List (E × List HId) → E → Option (List HId)
  | [], _ => none
  | (e', l) :: rest, e => if e' = e then some l else getListeners rest e

/-- Writing `this.eventListeners[event] = arr` (JS object assignment:
overwrites an existing key in place, appends a fresh key). -/
def setListeners {E : Type} [DecidableEq E] : List (E × List HId) → E → List HId → List (E × List HId)
  | [], e, l => [(e, l)]
  | (e', l') :: rest, e, l =>
      if e' = e then (e, l) :: rest else (e', l') :: setListeners rest e l

/-- Fresh dispatcher: `private eventListeners = {}`. -/
def newDispatcher {E : Type} : EventDispatcher E := ⟨[]⟩

/-- `subscribe(event, callback)`: create an empty array if the key is
absent, then push the callback. -/
def subscribe {E : Type} [DecidableEq E] (d : EventDispatcher E) (e : E) (h : HId) : EventDispatcher E :=
  ⟨setListeners d.eventListeners e (((getListeners d.eventListeners e).getD []) ++ [h])⟩

/-- `unsubscribe(event, callback)`: if listeners exist, replace them by
`listeners.filter(cb => cb !== callback)`; otherwise do nothing. -/
def unsubscribe {E : Type} [DecidableEq E] (d : EventDispatcher E) (e : E) (h : HId) : EventDispatcher E :=
  match getListeners d.eventListeners e with
  | none => d
  | some l => ⟨setListeners d.eventListeners e (l.filter (fun cb => cb ≠ h))⟩

/-- A bus operation a handler may perform while it runs. -/
inductive Cmd (E P : Type) where
  | csubscribe (e : E) (h : HId)
  | cunsubscribe (e : E) (h : HId)
  | cdispatch (e : E) (p : P)
  | cthrow

/-- How a run ended abnormally: a handler threw (JS exception propagating
out of `dispatch`), or the fuel bounding nested dispatch ran out (a
modelling artifact, not a behaviour of the source). -/
inductive RunErr where
  | thrown
  | fuelOut
  deriving DecidableEq

/-- Result of running bus activity: final registry, the handler
invocations performed in order (handler, event, payload), and whether the
run returned normally (`err = none`). -/
structure RunOut (E P : Type) where
  bus : EventDispatcher E
  trace : List (HId × E × P)
  err : Option RunErr
  deriving DecidableEq

/-- Run a handler body (its command list) left to right, threading the
registry; `disp` performs a nested dispatch.  A throw aborts the rest. -/
def runCmds {E P : Type} [DecidableEq E] (disp : EventDispatcher E → E → P → RunOut E P)
    (s : EventDispatcher E) : List (Cmd E P) → RunOut E P
  | [] => ⟨s, [], none⟩
  | Cmd.csubscribe e h :: cs => runCmds disp (subscribe s e h) cs
  | Cmd.cunsubscribe e h :: cs => runCmds disp (unsubscribe s e h) cs
  | Cmd.cthrow :: _ => ⟨s, [], some RunErr.thrown⟩
  | Cmd.cdispatch e p :: cs =>
      let r := disp s e p
      match r.err with
      | some err => ⟨r.bus, r.trace, some err⟩
      | none =>
          let r2 := runCmds disp r.bus cs
          ⟨r2.bus, r.trace ++ r2.trace, r2.err⟩

/-- The `forEach` loop of `dispatch`: invoke each handler of the snapshot
in order with the payload; an uncaught throw aborts the remaining
handlers and propagates. -/
def runHandlers {E P : Type} [DecidableEq E] (disp : EventDispatcher E → E → P → RunOut E P)
    (beh : HId → P → List (Cmd E P)) (e : E) (p : P)
    (s : EventDispatcher E) : List HId → RunOut E P
  | [] => ⟨s, [], none⟩
  | h :: hs =>
      let r := runCmds disp s (beh h p)
      match r.err with
      | some err => ⟨r.bus, (h, e, p) :: r.trace, some err⟩
      | none =>
          let r2 := runHandlers disp beh e p r.bus hs
          ⟨r2.bus, (h, e, p) :: (r.trace ++ r2.trace), r2.err⟩

/-- `dispatch(event, payload)`: iterate the listener list as it stands at
dispatch time (see the modelling notes on `forEach` snapshotting); absent
key means no invocation at all (`?.`).  Fuel decreases once per nested
dispatch level. -/
def dispatch {E P : Type} [DecidableEq E] (beh : HId → P → List (Cmd E P)) :
    Nat → EventDispatcher E → E → P → RunOut E P
  | 0, s, _, _ => ⟨s, [], some RunErr.fuelOut⟩
  | fuel + 1, s, e, p =>
      runHandlers (dispatch beh fuel) beh e p s ((getListeners s.eventListeners e).getD [])

/-- A registry-mutating bus call made from outside any dispatch. -/
inductive BusOp (E : Type) where
  | sub (e : E) (h : HId)
  | unsub (e : E) (h : HId)

def applyBusOp {E : Type} [DecidableEq E] (s : EventDispatcher E) : BusOp E → EventDispatcher E
  | BusOp.sub e h => subscribe s e h
  | BusOp.unsub e h => unsubscribe s e h

/-! ## Catalog controller (class CatalogController) -/

/-- The in-place `existingItem.itemCount++` after `basket.find(...)`:
increment the first line whose product id matches. -/
def incFirst (pid : String) : List IProductCard → List IProductCard
  | [] => []
  | item :: rest =>
      if item.product.id = pid then ⟨item.product, item.buttonText, item.itemCount + 1⟩ :: rest
      else item :: incFirst pid rest

/-- `addToBasket(product)`: find a line by product id; increment its count
if found, else push `{ product, itemCount: 1 }`. -/
def addToBasket (basket : List IProductCard) (product : IProduct) : List IProductCard :=
  match basket.find? (fun item => item.product.id = product.id) with
  | some _ => incFirst product.id basket
  | none => basket ++ [⟨product, none, 1⟩]

/-- `removeFromBasket(product)`: `this.basket.filter(item => item.product.id !== product.id)`. -/
def removeFromBasket (basket : List IProductCard) (product : IProduct) : List IProductCard :=
  basket.filter (fun item => item.product.id ≠ product.id)

/-- `updateBasket(items)`: overwrite the basket with the received snapshot. -/
def updateBasket (_basket items : List IProductCard) : List IProductCard := items

/-- Handling a `product:add` dispatch: `addToBasket` mutates the basket and
then dispatches `basket:update` with the new basket, which the controller
itself receives and handles with `updateBasket`. -/
def handleProductAdd (basket : List IProductCard) (product : IProduct) : List IProductCard :=
  let b := addToBasket basket product
  updateBasket b b

/-- Handling a `product:remove` dispatch, including the nested
`basket:update` self-delivery. -/
def handleProductRemove (basket : List IProductCard) (product : IProduct) : List IProductCard :=
  let b := removeFromBasket basket product
  updateBasket b b

/-- The basket-mutating events the program's views dispatch. -/
inductive BasketEvent where
  | productAdd (p : IProduct)
  | productRemove (p : IProduct)

def catalogStep (basket : List IProductCard) : BasketEvent → List IProductCard
  | BasketEvent.productAdd p => handleProductAdd basket p
  | BasketEvent.productRemove p => handleProductRemove basket p

/-- The lines of the basket for one product identity. -/
def linesFor (basket : List IProductCard) (pid : String) : List IProductCard :=
  basket.filter (fun item => item.product.id = pid)

def basketIds (basket : List IProductCard) : List String :=
  basket.map (fun item => item.product.id)

/-- At most one basket line per product identity. -/
def UniqueIds (basket : List IProductCard) : Prop := (basketIds basket).Nodup

/-! ## Order controller (class OrderController) -/

structure OrderController where
  orderDetails : Option IOrderDetails
  contactInfo : Option IContactInfo
  deriving DecidableEq

/-- `setOrderDetails(details)` (the `order:init` handler). -/
def setOrderDetails (c : OrderController) (details : IOrderDetails) : OrderController :=
  ⟨some details, c.contactInfo⟩

/-- `submitOrder(contact)` (the `order:submit` handler): store the contact
info; if both pieces are present, build the combined candidate
`finalOrder` (a local value the source never stores or dispatches), which
we return alongside the new controller state. -/
def submitOrder (c : OrderController) (contact : IContactInfo) : OrderController × Option FinalOrder :=
  let c' : OrderController := ⟨c.orderDetails, some contact⟩
  match c'.orderDetails, c'.contactInfo with
  | some d, some ci => (c', some ⟨d.payment, d.address, ci.email, ci.phone⟩)
  | some _, none => (c', none)
  | none, _ => (c', none)

/-! ## View base (abstract class BaseView) -/

/-- A view's typed state, modelled as a total map from field names to
values (`K` the field names of `T`, `V` the values). -/
structure BaseView (K V : Type) where
  state : K → V

/-- The spread `{ ...this.state, ...newState }` with `newState : Partial T`:
a field named in the partial takes its value, any other field keeps the
current value. -/
def mergeState {K V : Type} (s : K → V) (u : K → Option V) : K → V :=
  fun k =>
    match u k with
    | some v => v
    | none => s k

/-- `updateState(newState)`: replace the state by the shallow merge, then
call `this.render()` once.  The second component records the render calls
triggered, each with the state it sees. -/
def updateState {K V : Type} (view : BaseView K V) (u : K → Option V) :
    BaseView K V × List (K → V) :=
  (⟨mergeState view.state u⟩, [mergeState view.state u])

/-! ## Bus lemmas -/

theorem getListeners_set_same {E : Type} [DecidableEq E] (l : List (E × List HId)) (e : E) (v : List HId) :
    getListeners (setListeners l e v) e = some v := by
  induction l with
  | nil => simp [getListeners, setListeners]
  | cons hd tl ih =>
    obtain ⟨e', l'⟩ := hd
    by_cases he : e' = e
    · simp [getListeners, setListeners, he]
    · simp [getListeners, setListeners, he, ih]

theorem getListeners_set_ne {E : Type} [DecidableEq E] (l : List (E × List HId)) (e' e : E) (v : List HId)
    (hne : e' ≠ e) : getListeners (setListeners l e' v) e = getListeners l e := by
  induction l with
  | nil => simp [getListeners, setListeners, hne]
  | cons hd tl ih =>
    obtain ⟨e0, l0⟩ := hd
    by_cases he : e0 = e'
    · simp [getListeners, setListeners, he, hne]
    · simp [getListeners, setListeners, he, ih]

theorem getListeners_subscribe_same {E : Type} [DecidableEq E] (s : EventDispatcher E) (e : E) (h : HId) :
    getListeners (subscribe s e h).eventListeners e =
      some (((getListeners s.eventListeners e).getD []) ++ [h]) := by
  simp [subscribe, getListeners_set_same]

theorem runHandlers_inert {E P : Type} [DecidableEq E]
    (disp : EventDispatcher E → E → P → RunOut E P) (e : E) (p : P)
    (s : EventDispatcher E) (l : List HId) :
    runHandlers disp (fun _ _ => []) e p s l = ⟨s, l.map (fun h => (h, e, p)), none⟩ := by
  induction l with
  | nil => simp [runHandlers]
  | cons h hs ih => simp [runHandlers, runCmds, ih]

theorem getListeners_sub_unsub {E : Type} [DecidableEq E] (s : EventDispatcher E) (e : E) (h : HId) :
    getListeners (unsubscribe (subscribe s e h) e h).eventListeners e =
      some (((getListeners s.eventListeners e).getD []).filter (fun cb => cb ≠ h)) := by
  unfold unsubscribe
  rw [getListeners_subscribe_same]
  simp [getListeners_set_same, List.filter_append]

/-- C3: subscribing a handler to an event and immediately unsubscribing it
leaves the bus in a state where a subsequent dispatch of that event
invokes that handler zero times, for every payload; the registry entry
for the event retains no copy of the handler (the filter removes all of
them). -/
theorem subscribe_unsubscribe_silences {E P : Type} [DecidableEq E]
    (s : EventDispatcher E) (e : E) (h : HId) (p : P) (fuel : Nat) :
    ((getListeners (unsubscribe (subscribe s e h) e h).eventListeners e).getD [] =
        ((getListeners s.eventListeners e).getD []).filter (fun cb => cb ≠ h)) ∧
    ((dispatch (fun _ _ => []) (fuel + 1) (unsubscribe (subscribe s e h) e h) e p).trace.countP
        (fun t => t.1 = h) = 0) := by
  constructor
  · rw [getListeners_sub_unsub]
    rfl
  · rw [dispatch, runHandlers_inert, getListeners_sub_unsub]
    simp only [Option.getD_some, List.countP_map]
    rw [List.countP_eq_zero]
    intro a ha
    have := List.of_mem_filter ha
    simpa using this

/-! ## Catalog lemmas -/

theorem addToBasket_absent (b : List IProductCard) (q : IProduct)
    (hb : linesFor b q.id = []) :
    addToBasket b q = b ++ [⟨q, none, 1⟩] := by
  unfold addToBasket
  have hnone : b.find? (fun item => item.product.id = q.id) = none := by
    rw [List.find?_eq_none]
    intro x hx
    simp only [linesFor, List.filter_eq_nil_iff] at hb
    simpa using hb x hx
  rw [hnone]

theorem linesFor_incFirst (b : List IProductCard) (pid : String) (item : IProductCard)
    (hb : linesFor b pid = [item]) :
    linesFor (incFirst pid b) pid = [⟨item.product, item.buttonText, item.itemCount + 1⟩] := by
  induction b with
  | nil => simp [linesFor] at hb
  | cons x rest ih =>
    by_cases hx : x.product.id = pid
    · simp only [linesFor, List.filter_cons, hx, decide_True, if_true] at hb
      simp only [List.cons.injEq] at hb
      obtain ⟨hxi, hrest⟩ := hb
      subst hxi
      simp [incFirst, hx, linesFor, List.filter_cons]
      simpa [linesFor] using hrest
    · simp only [linesFor, List.filter_cons, hx, decide_False, if_false] at hb
      have := ih (by simpa [linesFor] using hb)
      simp [incFirst, hx, linesFor, List.filter_cons]
      simpa [linesFor] using this

theorem linesFor_foldl_adds (ps : List IProduct) (pid : String) :
    ∀ (b : List IProductCard) (item : IProductCard),
      linesFor b pid = [item] → (∀ q ∈ ps, q.id = pid) →
      linesFor (ps.foldl handleProductAdd b) pid =
        [⟨item.product, item.buttonText, item.itemCount + ps.length⟩] := by
  induction ps with
  | nil =>
    intro b item hb _
    obtain ⟨ip, bt, c⟩ := item
    simpa using hb
  | cons q rest ih =>
    intro b item hb hall
    have hq : q.id = pid := hall q (by simp)
    have hmem : item ∈ b ∧ item.product.id = pid := by
      have : item ∈ linesFor b pid := by rw [hb]; simp
      simp only [linesFor, List.mem_filter, decide_eq_true_eq] at this
      exact this
    have hfind : ∃ x, b.find? (fun it => it.product.id = q.id) = some x := by
      have : (b.find? (fun it => it.product.id = q.id)).isSome := by
        rw [List.find?_isSome]
        exact ⟨item, hmem.1, by simp [hq, hmem.2]⟩
      exact Option.isSome_iff_exists.mp this
    obtain ⟨x, hx⟩ := hfind
    have hstep : handleProductAdd b q = incFirst pid b := by
      unfold handleProductAdd updateBasket addToBasket
      rw [hx, hq]
    rw [List.foldl_cons, hstep]
    have hlines := linesFor_incFirst b pid item hb
    have := ih (incFirst pid b) ⟨item.product, item.buttonText, item.itemCount + 1⟩ hlines
      (fun z hz => hall z (by simp [hz]))
    rw [this]
    have harith : item.itemCount + 1 + rest.length = item.itemCount + (rest.length + 1) := by omega
    simp [harith]

/-- C1: starting from a basket with no line for identity `pid`, folding any
nonempty sequence of `product:add` handlings whose products all carry
identity `pid` leaves exactly one line for `pid` in the basket, and its
`itemCount` equals the number of adds. -/
theorem add_sequence_one_line (b : List IProductCard) (pid : String) (ps : List IProduct)
    (hb : linesFor b pid = []) (hall : ∀ q ∈ ps, q.id = pid) (hne : ps ≠ []) :
    ∃ line, linesFor (ps.foldl handleProductAdd b) pid = [line] ∧
      line.itemCount = ps.length := by
  cases ps with
  | nil => exact absurd rfl hne
  | cons q rest =>
    have hq : q.id = pid := hall q (by simp)
    have h1 : handleProductAdd b q = b ++ [⟨q, none, 1⟩] := by
      unfold handleProductAdd updateBasket
      exact addToBasket_absent b q (by rw [hq]; exact hb)
    have h2 : linesFor (handleProductAdd b q) pid = [⟨q, none, 1⟩] := by
      rw [h1]
      simp only [linesFor, List.filter_append]
      have : b.filter (fun item => item.product.id = pid) = [] := hb
      rw [this]
      simp [hq]
    refine ⟨⟨q, none, 1 + rest.length⟩, ?_, by simp [Nat.add_comm]⟩
    rw [List.foldl_cons]
    have := linesFor_foldl_adds rest pid (handleProductAdd b q) ⟨q, none, 1⟩ h2
      (fun z hz => hall z (by simp [hz]))
    simpa using this

def productP1 : IProduct := ⟨"p1", "d", "i", "Widget", "cat", some 10⟩

def productP1b : IProduct := ⟨"p1", "d2", "i2", "Widget2", "cat2", none⟩

def productQ7 : IProduct := ⟨"q7", "d3", "i3", "Gadget", "cat3", some 3⟩

theorem add_sequence_one_line_case :
    ∃ line, linesFor ([productP1, productP1b].foldl handleProductAdd []) "p1" = [line] ∧
      line.itemCount = 2 :=
  add_sequence_one_line [] "p1" [productP1, productP1b] rfl
    (by
      intro q hq
      simp only [List.mem_cons, List.mem_singleton, List.not_mem_nil, or_false] at hq
      rcases hq with h | h <;> subst h <;> rfl)
    (by simp)

theorem basketIds_incFirst (pid : String) (b : List IProductCard) :
    basketIds (incFirst pid b) = basketIds b := by
  induction b with
  | nil => rfl
  | cons x rest ih =>
    by_cases hx : x.product.id = pid
    · simp [incFirst, hx, basketIds]
    · simp only [incFirst, hx, if_false, basketIds, List.map_cons]
      simpa [basketIds] using ih

theorem uniqueIds_addToBasket (b : List IProductCard) (q : IProduct) (hb : UniqueIds b) :
    UniqueIds (addToBasket b q) := by
  unfold addToBasket
  cases hfind : b.find? (fun item => item.product.id = q.id) with
  | some x =>
    unfold UniqueIds
    rw [basketIds_incFirst]
    exact hb
  | none =>
    have hnot : ∀ item ∈ b, ¬ item.product.id = q.id := by
      intro item him
      have := List.find?_eq_none.mp hfind item him
      simpa using this
    unfold UniqueIds basketIds
    rw [List.map_append, List.nodup_append]
    refine ⟨hb, by simp, ?_⟩
    intro a ha hamem
    simp only [List.map_cons, List.map_nil, List.mem_singleton] at hamem
    subst hamem
    simp only [List.mem_map] at ha
    obtain ⟨item, him, hid⟩ := ha
    exact hnot item him hid

theorem uniqueIds_removeFromBasket (b : List IProductCard) (q : IProduct) (hb : UniqueIds b) :
    UniqueIds (removeFromBasket b q) := by
  unfold UniqueIds basketIds removeFromBasket
  exact List.Nodup.sublist (List.Sublist.map _ (List.filter_sublist b)) hb

/-- C2: every state of the catalog controller's basket reachable by the
basket-mutating events the program dispatches (each `product:add` /
`product:remove` handling includes the controller's nested self-delivery
of `basket:update`) has at most one line per product identity; moreover
each individual handler preserves that invariant, `basket:update`
whenever the received snapshot itself satisfies it (which the snapshots
the controller publishes always do). -/
theorem basket_unique_per_identity :
    (∀ ops : List BasketEvent, UniqueIds (ops.foldl catalogStep [])) ∧
    (∀ (b : List IProductCard) (p : IProduct), UniqueIds b → UniqueIds (handleProductAdd b p)) ∧
    (∀ (b : List IProductCard) (p : IProduct), UniqueIds b → UniqueIds (handleProductRemove b p)) ∧
    (∀ (b items : List IProductCard), UniqueIds items → UniqueIds (updateBasket b items)) := by
  have hadd : ∀ (b : List IProductCard) (p : IProduct),
      UniqueIds b → UniqueIds (handleProductAdd b p) := by
    intro b p hb
    unfold handleProductAdd updateBasket
    exact uniqueIds_addToBasket b p hb
  have hrem : ∀ (b : List IProductCard) (p : IProduct),
      UniqueIds b → UniqueIds (handleProductRemove b p) := by
    intro b p hb
    unfold handleProductRemove updateBasket
    exact uniqueIds_removeFromBasket b p hb
  refine ⟨?_, hadd, hrem, fun _ _ hi => hi⟩
  have hgen : ∀ (ops : List BasketEvent) (b : List IProductCard),
      UniqueIds b → UniqueIds (ops.foldl catalogStep b) := by
    intro ops
    induction ops with
    | nil => intro b hb; simpa using hb
    | cons op rest ih =>
      intro b hb
      rw [List.foldl_cons]
      apply ih
      cases op with
      | productAdd p => exact hadd b p hb
      | productRemove p => exact hrem b p hb
  intro ops
  exact hgen ops [] (by simp [UniqueIds, basketIds])

theorem basket_unique_per_identity_case :
    UniqueIds ([BasketEvent.productAdd productP1, BasketEvent.productAdd productQ7,
        BasketEvent.productRemove productP1].foldl catalogStep []) ∧
    UniqueIds (updateBasket [⟨productP1, none, 1⟩] [⟨productQ7, none, 2⟩]) :=
  ⟨basket_unique_per_identity.1 _,
   basket_unique_per_identity.2.2.2 _ _ (by simp [UniqueIds, basketIds])⟩

/-- C7: handling `product:remove` for a product whose identity has no line
in the basket (including the nested `basket:update` self-delivery) leaves
the basket exactly as it was — the same list, in the same order; the
handler is total, so no error is raised. -/
theorem remove_absent_is_noop (b : List IProductCard) (p : IProduct)
    (h : ∀ item ∈ b, item.product.id ≠ p.id) :
    handleProductRemove b p = b := by
  unfold handleProductRemove updateBasket removeFromBasket
  rw [List.filter_eq_self]
  intro a ha
  simpa using h a ha

theorem remove_absent_is_noop_case :
    handleProductRemove [⟨productP1, none, 2⟩] productQ7 = [⟨productP1, none, 2⟩] :=
  remove_absent_is_noop _ _ (by
    intro item him
    simp only [List.mem_singleton] at him
    subst him
    simp [productP1, productQ7])

/-- C8: the order controller's `order:submit` handler always stores the
contact info; with no `OrderDetails` recorded it forms no combined order,
while after an `order:init` (which records the details) it holds both
values and the combined candidate order is the field union of the two
payloads — payment and address from the details, email and phone from the
contact info. -/
theorem order_controller_combines :
    (∀ (ci0 : Option IContactInfo) (contact : IContactInfo),
        submitOrder ⟨none, ci0⟩ contact = (⟨none, some contact⟩, none)) ∧
    (∀ (c0 : OrderController) (details : IOrderDetails) (contact : IContactInfo),
        submitOrder (setOrderDetails c0 details) contact =
          (⟨some details, some contact⟩,
            some ⟨details.payment, details.address, contact.email, contact.phone⟩)) := by
  exact ⟨fun _ _ => rfl, fun _ _ _ => rfl⟩

/-- C9: `updateState` triggers exactly one render, the render sees the
merged state, every field named in the partial update takes the partial's
value, and every other field keeps its previous value. -/
theorem updateState_single_render_merge {K V : Type} (view : BaseView K V) (u : K → Option V) :
    ((updateState view u).2 = [(updateState view u).1.state]) ∧
    ((updateState view u).2.length = 1) ∧
    (∀ k v, u k = some v → (updateState view u).1.state k = v) ∧
    (∀ k, u k = none → (updateState view u).1.state k = view.state k) := by
  refine ⟨rfl, rfl, ?_, ?_⟩
  · intro k v hk
    simp [updateState, mergeState, hk]
  · intro k hk
    simp [updateState, mergeState, hk]

def viewB : BaseView Bool Nat := ⟨fun _ => 0⟩

def updB : Bool → Option Nat := fun b => if b then some 5 else none

theorem updateState_single_render_merge_case :
    (updateState viewB updB).1.state true = 5 ∧
    (updateState viewB updB).1.state false = 0 ∧
    (updateState viewB updB).2.length = 1 :=
  ⟨(updateState_single_render_merge viewB updB).2.2.1 true 5 rfl,
   (updateState_single_render_merge viewB updB).2.2.2 false rfl,
   (updateState_single_render_merge viewB updB).2.1⟩

/-- C5: a dispatch invokes the registered handlers in exactly registration
order (its invocation trace is the listener list, in order), and
subscribing the same handler twice registers it twice, so one dispatch
invokes it twice (two more occurrences than before). -/
theorem dispatch_order_and_duplicates {E P : Type} [DecidableEq E]
    (s : EventDispatcher E) (e : E) (h : HId) (p : P) (fuel : Nat) :
    ((dispatch (fun _ _ => []) (fuel + 1) s e p).trace =
        ((getListeners s.eventListeners e).getD []).map (fun cb => (cb, e, p))) ∧
    ((getListeners (subscribe (subscribe s e h) e h).eventListeners e).getD [] =
        ((getListeners s.eventListeners e).getD []) ++ [h, h]) ∧
    ((dispatch (fun _ _ => []) (fuel + 1) (subscribe (subscribe s e h) e h) e p).trace.countP
        (fun t => t.1 = h) =
      ((getListeners s.eventListeners e).getD []).countP (fun cb => cb = h) + 2) := by
  have hsub2 : getListeners (subscribe (subscribe s e h) e h).eventListeners e =
      some (((getListeners s.eventListeners e).getD []) ++ [h, h]) := by
    rw [getListeners_subscribe_same, getListeners_subscribe_same]
    simp
  refine ⟨?_, by rw [hsub2]; rfl, ?_⟩
  · simp only [dispatch]
    rw [runHandlers_inert]
  · simp only [dispatch, hsub2, Option.getD_some]
    rw [runHandlers_inert]
    simp only [List.countP_map, List.countP_append, List.countP_cons, Function.comp_def]
    simp

/-- C4: dispatch iterates a snapshot of the listener list taken when the
dispatch starts.  First: with two handlers registered, the first handler
unsubscribing the second during the dispatch still leaves the second
invoked in that same dispatch (though it is gone from the registry
afterwards).  Second: a handler subscribing a new handler during the
dispatch does not get it invoked in that dispatch, although it is
registered afterwards.  Third: the newly subscribed handler is invoked by
a later dispatch. -/
theorem dispatch_snapshot_semantics {E P : Type} [DecidableEq E] (e : E) (p : P)
    (h1 h2 : HId) (hne : h1 ≠ h2) (fuel : Nat) :
    (dispatch (fun h _ => if h = h1 then [Cmd.cunsubscribe e h2] else []) (fuel + 1)
        (subscribe (subscribe newDispatcher e h1) e h2) e p =
      ⟨⟨[(e, [h1])]⟩, [(h1, e, p), (h2, e, p)], none⟩) ∧
    (dispatch (fun h _ => if h = h1 then [Cmd.csubscribe e h2] else []) (fuel + 1)
        (subscribe newDispatcher e h1) e p =
      ⟨⟨[(e, [h1, h2])]⟩, [(h1, e, p)], none⟩) ∧
    (dispatch (fun h _ => if h = h1 then [Cmd.csubscribe e h2] else []) (fuel + 1)
        (⟨[(e, [h1, h2])]⟩ : EventDispatcher E) e p =
      ⟨⟨[(e, [h1, h2, h2])]⟩, [(h1, e, p), (h2, e, p)], none⟩) := by
  have hne' : h2 ≠ h1 := Ne.symm hne
  have hs1 : subscribe (newDispatcher : EventDispatcher E) e h1 = ⟨[(e, [h1])]⟩ := by
    simp [subscribe, newDispatcher, getListeners, setListeners]
  have hs2 : subscribe (⟨[(e, [h1])]⟩ : EventDispatcher E) e h2 = ⟨[(e, [h1, h2])]⟩ := by
    simp [subscribe, getListeners, setListeners]
  refine ⟨?_, ?_, ?_⟩
  · rw [hs1, hs2]
    simp [dispatch, runHandlers, runCmds, unsubscribe, subscribe, getListeners, setListeners,
      hne, hne']
  · rw [hs1]
    simp [dispatch, runHandlers, runCmds, unsubscribe, subscribe, getListeners, setListeners,
      hne, hne']
  · simp [dispatch, runHandlers, runCmds, unsubscribe, subscribe, getListeners, setListeners,
      hne, hne']

theorem dispatch_snapshot_semantics_case :
    (dispatch (fun h _ => if h = 0 then [Cmd.cunsubscribe EventName.productAdd 1] else []) 1
        (subscribe (subscribe newDispatcher EventName.productAdd 0) EventName.productAdd 1)
        EventName.productAdd (42 : Nat) =
      ⟨⟨[(EventName.productAdd, [0])]⟩, [(0, EventName.productAdd, 42), (1, EventName.productAdd, 42)],
        none⟩) ∧
    (dispatch (fun h _ => if h = 0 then [Cmd.csubscribe EventName.productAdd 1] else []) 1
        (subscribe newDispatcher EventName.productAdd 0) EventName.productAdd (42 : Nat) =
      ⟨⟨[(EventName.productAdd, [0, 1])]⟩, [(0, EventName.productAdd, 42)], none⟩) ∧
    (dispatch (fun h _ => if h = 0 then [Cmd.csubscribe EventName.productAdd 1] else []) 1
        (⟨[(EventName.productAdd, [0, 1])]⟩ : EventDispatcher EventName)
        EventName.productAdd (42 : Nat) =
      ⟨⟨[(EventName.productAdd, [0, 1, 1])]⟩,
        [(0, EventName.productAdd, 42), (1, EventName.productAdd, 42)], none⟩) :=
  dispatch_snapshot_semantics EventName.productAdd 42 0 1 (by decide) 0

theorem runHandlers_stops_at_throw {E P : Type} [DecidableEq E]
    (disp : EventDispatcher E → E → P → RunOut E P) (beh : HId → P → List (Cmd E P))
    (e : E) (p : P) (s : EventDispatcher E) (l1 l2 : List HId) (hT : HId)
    (hpre : ∀ h ∈ l1, beh h p = []) (hthrow : beh hT p = [Cmd.cthrow]) :
    runHandlers disp beh e p s (l1 ++ hT :: l2) =
      ⟨s, (l1 ++ [hT]).map (fun h => (h, e, p)), some RunErr.thrown⟩ := by
  induction l1 with
  | nil => simp [runHandlers, hthrow, runCmds]
  | cons h hs ih =>
    have hh : beh h p = [] := hpre h (by simp)
    simp only [List.cons_append, runHandlers, hh, runCmds, List.append_eq]
    rw [ih (fun z hz => hpre z (by simp [hz]))]
    simp

/-- C6: if the handlers registered before the k-th are inert and the k-th
handler throws, the dispatch invokes exactly the first k handlers (the
trace stops at the thrower; the handlers registered after it are never
invoked) and ends with the exception propagating out uncaught. -/
theorem handler_throw_aborts_rest {E P : Type} [DecidableEq E]
    (beh : HId → P → List (Cmd E P)) (s : EventDispatcher E) (e : E) (p : P)
    (l1 l2 : List HId) (hT : HId) (fuel : Nat)
    (hpre : ∀ h ∈ l1, beh h p = [])
    (hthrow : beh hT p = [Cmd.cthrow])
    (hreg : getListeners s.eventListeners e = some (l1 ++ hT :: l2)) :
    dispatch beh (fuel + 1) s e p =
      ⟨s, (l1 ++ [hT]).map (fun h => (h, e, p)), some RunErr.thrown⟩ := by
  simp only [dispatch, hreg, Option.getD_some]
  exact runHandlers_stops_at_throw _ beh e p s l1 l2 hT hpre hthrow

def behThrower : HId → Nat → List (Cmd EventName Nat) :=
  fun h _ => if h = 1 then [Cmd.cthrow] else []

def busFour : EventDispatcher EventName := ⟨[(EventName.productAdd, [0, 1, 2, 3])]⟩

theorem handler_throw_aborts_rest_case :
    dispatch behThrower 1 busFour EventName.productAdd 0 =
      ⟨busFour, [(0, EventName.productAdd, 0), (1, EventName.productAdd, 0)],
        some RunErr.thrown⟩ :=
  handler_throw_aborts_rest behThrower busFour EventName.productAdd 0 [0] [2, 3] 1 0
    (by
      intro h hh
      simp only [List.mem_singleton] at hh
      subst hh
      rfl)
    (by rfl)
    (by rfl)

theorem getListeners_applyBusOp_none {E : Type} [DecidableEq E]
    (s : EventDispatcher E) (op : BusOp E) (e : E)
    (hop : ∀ h, op ≠ BusOp.sub e h)
    (hn : getListeners s.eventListeners e = none) :
    getListeners (applyBusOp s op).eventListeners e = none := by
  cases op with
  | sub e' h =>
    have hne : e' ≠ e := by
      intro q
      subst q
      exact hop h rfl
    simp [applyBusOp, subscribe, getListeners_set_ne _ _ _ _ hne, hn]
  | unsub e' h =>
    by_cases he : e' = e
    · subst he
      simp [applyBusOp, unsubscribe, hn]
    · unfold applyBusOp unsubscribe
      cases hg : getListeners s.eventListeners e' with
      | none =>
        simp only [hg]
        simpa using hn
      | some l =>
        simp only [hg]
        simpa [getListeners_set_ne _ _ _ _ he] using hn

theorem never_subscribed_none {E : Type} [DecidableEq E] (ops : List (BusOp E)) (e : E)
    (hnever : ∀ h, BusOp.sub e h ∉ ops) :
    getListeners ((ops.foldl applyBusOp newDispatcher).eventListeners) e = none := by
  have hgen : ∀ (ops : List (BusOp E)) (s : EventDispatcher E),
      (∀ h, BusOp.sub e h ∉ ops) → getListeners s.eventListeners e = none →
      getListeners ((ops.foldl applyBusOp s).eventListeners) e = none := by
    intro ops
    induction ops with
    | nil =>
      intro s _ hn
      simpa using hn
    | cons op rest ih =>
      intro s hnever hn
      rw [List.foldl_cons]
      apply ih
      · intro h hmem
        exact hnever h (by simp [hmem])
      · refine getListeners_applyBusOp_none s op e ?_ hn
        intro h heq
        refine hnever h ?_
        rw [← heq]
        exact List.mem_cons_self op rest
  exact hgen ops newDispatcher hnever rfl

/-- C10: dispatching an event name for which no handler was ever subscribed
(over any history of subscribe/unsubscribe calls that never subscribed to
it) is a safe no-op: the registry has no entry for it, and the dispatch
returns normally, invokes no handler, and leaves the whole bus state
unchanged, whatever the handler behaviours are. -/
theorem dispatch_no_listeners_noop {E P : Type} [DecidableEq E]
    (ops : List (BusOp E)) (e : E) (p : P)
    (beh : HId → P → List (Cmd E P)) (fuel : Nat)
    (hnever : ∀ h, BusOp.sub e h ∉ ops) :
    getListeners ((ops.foldl applyBusOp newDispatcher).eventListeners) e = none ∧
    dispatch beh (fuel + 1) (ops.foldl applyBusOp newDispatcher) e p =
      ⟨ops.foldl applyBusOp newDispatcher, [], none⟩ := by
  have hn := never_subscribed_none ops e hnever
  refine ⟨hn, ?_⟩
  simp only [dispatch, hn, Option.getD_none]
  simp [runHandlers]

theorem dispatch_no_listeners_noop_case :
    getListeners (([BusOp.sub EventName.productAdd 0].foldl applyBusOp
        newDispatcher).eventListeners) EventName.modalClose = none ∧
    dispatch (fun _ _ => ([] : List (Cmd EventName Nat))) 1
        ([BusOp.sub EventName.productAdd 0].foldl applyBusOp newDispatcher)
        EventName.modalClose 0 =
      ⟨[BusOp.sub EventName.productAdd 0].foldl applyBusOp newDispatcher, [], none⟩ :=
  dispatch_no_listeners_noop _ _ _ _ 0 (by
    intro h hmem
    simp only [List.mem_singleton, BusOp.sub.injEq] at hmem
    exact absurd hmem.1 (by decide))
